import Mathlib

/-!
Shallow embedding of the event-driven microservice core
(src/app/main.py and src/app/worker.py).

The session log (a Redis stream) is modelled as a list of entries; each
entry is the field map passed to XADD, read back with byte-string keys
(the client stores field names as bytes and the relay reads them with
decode_responses=False).  The producer is `generate_messages`
(worker.py); the HTTP admission step is `stream_messages` (main.py,
lines 53-58) and the relay generator is `generate` (main.py, lines
60-97), modelled as a fuelled loop over an availability schedule
`avail : Nat -> Nat` giving, for each poll, how many entries of the
final log have been appended so far (0 entries visible = empty XREAD).

Opaque external ingredients are parameters: `datetime.now().isoformat()`
becomes `ProducerEnv.timestamp`, and the sha256 chain computed by
`cpu_intensive_task` (whose value no claim depends on) becomes the
opaque `ProducerEnv.hash_preview` (first 16 hex characters, identical
in every iteration since the argument is the constant 1000).
-/

namespace EventStream

/-- A Redis hash-field key as the relay sees it: the producer's string
keys come back as byte strings (`bk`), but main.py line 76 also probes
the plain string key (`sk`). -/
inductive FKey where
  | bk (s : String)
  | sk (s : String)
deriving DecidableEq

/-- One stream entry: the field map given to XADD / returned by XREAD. -/
structure XEntry where
  fields : List (FKey × String)
deriving DecidableEq

/-- Python dict lookup `d.get(k)` over the field map. -/
def dictGet (d : List (FKey × String)) (k : FKey) : Option String :=
  match d with
  | [] => none
  | (k', v) :: rest => if k' = k then some v else dictGet rest k

/-- Python `a or b` on optional strings: `None` and `""` are falsy. -/
def pyOr (a b : Option String) : Option String :=
  match a with
  | some v => if v = "" then b else some v
  | none => b

/-- main.py line 76: `data.get(b"data") or data.get("data")`. -/
def getData (e : XEntry) : Option String :=
  pyOr (dictGet e.fields (FKey.bk "data")) (dictGet e.fields (FKey.sk "data"))

/-- Rendering of `msg_data` inside the f-string at main.py line 86:
Python prints `None` for a missing value. -/
def pyFStr (a : Option String) : String :=
  match a with
  | none => "None"
  | some s => s

/-- Hex digit (lowercase), as used by json.dumps for \u escapes. -/
def hexDigit (n : Nat) : Char :=
  if n < 10 then Char.ofNat (48 + n) else Char.ofNat (87 + n)

/-- A single \uXXXX escape. -/
def uEsc4 (n : Nat) : List Char :=
  ['\\', 'u', hexDigit (n / 4096 % 16), hexDigit (n / 256 % 16),
   hexDigit (n / 16 % 16), hexDigit (n % 16)]

/-- json.dumps non-ASCII escape; code points beyond the BMP become a
surrogate pair. -/
def uEscape (n : Nat) : List Char :=
  if n < 65536 then uEsc4 n
  else uEsc4 (55296 + (n - 65536) / 1024) ++ uEsc4 (56320 + (n - 65536) % 1024)

/-- Escaping of one character inside a json.dumps string literal
(default ensure_ascii=True). -/
def escChar (c : Char) : List Char :=
  if c = '"' then ['\\', '"']
  else if c = '\\' then ['\\', '\\']
  else if c = '\n' then ['\\', 'n']
  else if c = '\r' then ['\\', 'r']
  else if c = '\t' then ['\\', 't']
  else if c = '\x08' then ['\\', 'b']
  else if c = '\x0c' then ['\\', 'f']
  else if c.toNat < 32 || 126 < c.toNat then uEscape c.toNat
  else [c]

/-- Body of a json.dumps string literal. -/
def jsonEscape (s : String) : String :=
  String.mk (s.data.foldr (fun c acc => escChar c ++ acc) [])

/-- A json.dumps string literal. -/
def jsonQuote (s : String) : String :=
  "\"" ++ jsonEscape s ++ "\""

/-- json.dumps of an object all of whose values are strings, with the
default separators `(", ", ": ")`: the comma-joined key/value pairs. -/
def dumpsPairs : List (String × String) → String
  | [] => ""
  | [(k, v)] => jsonQuote k ++ ": " ++ jsonQuote v
  | (k, v) :: rest => jsonQuote k ++ ": " ++ jsonQuote v ++ ", " ++ dumpsPairs rest

/-- json.dumps of a flat string-valued object (keys in insertion order,
as dict order is preserved). -/
def dumpsObj (kvs : List (String × String)) : String :=
  "\x7b" ++ dumpsPairs kvs ++ "\x7d"

/-- The message dict built in worker.py lines 46-56. -/
structure Message where
  id : String
  feature_id : String
  chat_id : String
  message : String
  timestamp : String
  container_id : String
  container_feature_id : String
  worker : String
  hash_preview : String
deriving DecidableEq

/-- Ambient inputs of one producer run: os.getenv values, the wall
clock, and the (opaque) sha256-chain preview. -/
structure ProducerEnv where
  container_id : String
  container_feature_id : String
  timestamp : Nat → String
  hash_preview : String

/-- worker.py lines 46-56: the i-th message of a session. -/
def mkMessage (fid cid : String) (env : ProducerEnv) (i : Nat) : Message :=
  { id := toString i
    feature_id := fid
    chat_id := cid
    message := "Message " ++ toString i ++ " from feature " ++ fid ++ ", chat " ++ cid
    timestamp := env.timestamp i
    container_id := env.container_id
    container_feature_id := env.container_feature_id
    worker := "arq"
    hash_preview := env.hash_preview }

/-- worker.py line 59: `json.dumps(message)` with dict insertion order. -/
def serializeMessage (m : Message) : String :=
  dumpsObj [("id", m.id), ("feature_id", m.feature_id), ("chat_id", m.chat_id),
            ("message", m.message), ("timestamp", m.timestamp),
            ("container_id", m.container_id),
            ("container_feature_id", m.container_feature_id),
            ("worker", m.worker), ("hash_preview", m.hash_preview)]

/-- An XADD field map `{"data": payload}`; the field name is stored as
bytes, so readers see the `bk "data"` key. -/
def mkDataEntry (payload : String) : XEntry :=
  { fields := [(FKey.bk "data", payload)] }

/-- worker.py line 59: the stream entry of the i-th message. -/
def msgEntry (fid cid : String) (env : ProducerEnv) (i : Nat) : XEntry :=
  mkDataEntry (serializeMessage (mkMessage fid cid env i))

/-- worker.py line 63: the completion marker `{"data": "[DONE]"}`. -/
def doneEntry : XEntry := mkDataEntry "[DONE]"

/-- worker.py lines 73-79: the serialized error record. -/
def errPayload (e fid cid : String) : String :=
  dumpsObj [("error", e), ("feature_id", fid), ("chat_id", cid)]

/-- worker.py lines 73-80: the stream entry of the error record. -/
def errEntry (e fid cid : String) : XEntry :=
  mkDataEntry (errPayload e fid cid)

/-- Session log addressing (main.py line 51, worker.py line 36). -/
def streamKey (fid cid : String) : String :=
  "stream:" ++ fid ++ ":" ++ cid

/-- An observable side effect of the producer on the log store. -/
inductive PEffect where
  | xadd (e : XEntry)
  | expire (seconds : Nat)
deriving DecidableEq

/-- The producer's exception-free exit value vs a re-raised exception. -/
inductive Outcome where
  | ok (result : String)
  | raised (err : String)
deriving DecidableEq

/-- One complete producer execution: its ordered store effects and how
it returned to the executor. -/
structure ProducerRun where
  trace : List PEffect
  outcome : Outcome
deriving DecidableEq

/-- The entries a trace appended, in order. -/
def effectsLog (tr : List PEffect) : List XEntry :=
  tr.filterMap (fun pe => match pe with | PEffect.xadd e => some e | _ => none)

/-- Whether a trace set a time-to-live on the log. -/
def ttlSet (tr : List PEffect) : Bool :=
  tr.any (fun pe => match pe with | PEffect.expire _ => true | _ => false)

/-- worker.py lines 42-60: the message loop.  Fault injection: `fault =
some (k, e)` models an exception with text `e` raised inside iteration
`k` before that iteration's XADD (e.g. in the CPU-bound step); the pair
returned is the entries appended and the pending exception, if any. -/
def produceMessages (fid cid : String) (env : ProducerEnv)
    (fault : Option (Nat × String)) : Nat → Nat → List XEntry × Option String
  | 0, _ => ([], none)
  | n + 1, i =>
    match fault with
    | some (k, e) =>
      if i = k then ([], some e)
      else
        let r := produceMessages fid cid env (some (k, e)) n (i + 1)
        (msgEntry fid cid env i :: r.1, r.2)
    | none =>
      let r := produceMessages fid cid env none n (i + 1)
      (msgEntry fid cid env i :: r.1, r.2)

/-- worker.py lines 41-81, `generate_messages`: run the 20-iteration
loop; on success append the `[DONE]` marker and set the 60-second
expiry and return the summary string; on an exception append one error
record (no expiry) and re-raise. -/
def generate_messages (fid cid : String) (env : ProducerEnv)
    (fault : Option (Nat × String)) : ProducerRun :=
  let r := produceMessages fid cid env fault 20 0
  match r.2 with
  | none =>
    { trace := r.1.map PEffect.xadd ++ [PEffect.xadd doneEntry, PEffect.expire 60]
      outcome := Outcome.ok ("Generated 20 messages for " ++ fid ++ ":" ++ cid) }
  | some e =>
    { trace := r.1.map PEffect.xadd ++ [PEffect.xadd (errEntry e fid cid)]
      outcome := Outcome.raised e }

/-- The log written by a producer run. -/
def producerLog (run : ProducerRun) : List XEntry :=
  effectsLog run.trace

/-- main.py line 63. -/
def max_retries : Nat := 30

/-- The SSE frame the relay emits for a non-terminal entry
(main.py line 86). -/
def frameOf (e : XEntry) : String :=
  "data: " ++ pyFStr (getData e) ++ "\n\n"

/-- main.py line 82. -/
def doneFrame : String := "data: [DONE]\n\n"

/-- main.py line 93. -/
def timeoutFrame : String :=
  "data: \x7b\"error\": \"Timeout waiting for messages\"\x7d\n\n"

/-- The outcome of one relay generator run: the frames yielded, whether
the generator returned (vs the model running out of fuel), and how many
XREAD polls it performed. -/
structure RelayRun where
  frames : List String
  terminated : Bool
  polls : Nat
deriving DecidableEq

/-- main.py lines 65-97: the relay polling loop.  `cursor` counts the
entries already consumed (`last_id` tracks the id of entry `cursor-1`;
the initial `"0-0"` is cursor 0).  One iteration is one bounded XREAD
(count=1, block=1000): it sees `min (avail t) log.length` entries
appended so far and returns the entry at `cursor` if that is below it.
`fuel` only makes the loop a total function; every claim supplies
enough fuel for the run to return. -/
def relayLoop (log : List XEntry) (avail : Nat → Nat) :
    Nat → Nat → Nat → Nat → RelayRun
  | 0, _, _, _ => { frames := [], terminated := false, polls := 0 }
  | fuel + 1, cursor, retries, t =>
    if h : cursor < min (avail t) log.length then
      if getData (log.get ⟨cursor, Nat.lt_of_lt_of_le h (Nat.min_le_right _ _)⟩) =
          some "[DONE]" then
        { frames := [doneFrame], terminated := true, polls := 1 }
      else
        { frames :=
            frameOf (log.get ⟨cursor, Nat.lt_of_lt_of_le h (Nat.min_le_right _ _)⟩) ::
              (relayLoop log avail fuel (cursor + 1) 0 (t + 1)).frames
          terminated := (relayLoop log avail fuel (cursor + 1) 0 (t + 1)).terminated
          polls := (relayLoop log avail fuel (cursor + 1) 0 (t + 1)).polls + 1 }
    else
      if max_retries < retries + 1 then
        { frames := [timeoutFrame], terminated := true, polls := 1 }
      else
        { frames := (relayLoop log avail fuel cursor (retries + 1) (t + 1)).frames
          terminated := (relayLoop log avail fuel cursor (retries + 1) (t + 1)).terminated
          polls := (relayLoop log avail fuel cursor (retries + 1) (t + 1)).polls + 1 }

/-- Fuel that always outlasts the loop: the cursor advances at most
`log.length` times and each reset retry window is at most
`max_retries + 1` polls. -/
def relayFuel (log : List XEntry) : Nat :=
  32 * log.length + 32

/-- main.py lines 60-97, `generate`: the relay attached at the origin
cursor. -/
def generate (log : List XEntry) (avail : Nat → Nat) : RelayRun :=
  relayLoop log avail (relayFuel log) 0 0 0

/-- An action the POST /stream handler performs after its existence
check. -/
inductive GatewayAction where
  | enqueueJob (fid cid : String)
  | attachRelay (cursor : Nat)
deriving DecidableEq

/-- main.py lines 53-58 and 99: given the result of
`redis_client.exists(stream_key)`, enqueue `generate_messages` only if
the stream is absent, then attach the relay at the origin cursor. -/
def stream_messages (fid cid : String) (streamExists : Bool) : List GatewayAction :=
  (if streamExists then [] else [GatewayAction.enqueueJob fid cid]) ++
    [GatewayAction.attachRelay 0]

/-- Number of jobs a request submits. -/
def countEnqueues (as : List GatewayAction) : Nat :=
  as.countP (fun a => match a with | GatewayAction.enqueueJob _ _ => true | _ => false)

/-- An event in the life of one session key, as seen by the admission
path: an HTTP request arrives (main.py lines 43-58), the enqueued
worker performs its first XADD (which is what makes
`redis_client.exists` true), or the log's time-to-live expires. -/
inductive SessionEvent where
  | request
  | firstAppend
  | expire
deriving DecidableEq

/-- The store/executor state the admission path observes and affects. -/
structure SessionState where
  streamExists : Bool
  jobsSubmitted : Nat
deriving DecidableEq

/-- Effect of one session event: a request runs main.py lines 53-58
against the current existence bit (enqueueing does not itself create
the stream); the producer's first append creates it; expiry drops it. -/
def dispatchStep (fid cid : String) (s : SessionState) : SessionEvent → SessionState
  | SessionEvent.request =>
    { s with jobsSubmitted :=
        s.jobsSubmitted + countEnqueues (stream_messages fid cid s.streamExists) }
  | SessionEvent.firstAppend => { s with streamExists := true }
  | SessionEvent.expire => { s with streamExists := false }

/-- Run a sequence of session events. -/
def runSession (fid cid : String) (s : SessionState) (tr : List SessionEvent) : SessionState :=
  tr.foldl (dispatchStep fid cid) s

/-- Non-overlapping request sequences: between any two requests the
previously admitted job has performed its first append (no two requests
race inside the check-then-submit window).  The flag records whether a
request has been seen since the last first-append. -/
def sepAux : Bool → List SessionEvent → Bool
  | _, [] => true
  | pending, e :: rest =>
    match e with
    | SessionEvent.request => !pending && sepAux true rest
    | SessionEvent.firstAppend => sepAux false rest
    | SessionEvent.expire => sepAux pending rest

/-- A concrete producer environment used for concrete evaluations. -/
def envW : ProducerEnv :=
  { container_id := "host-1"
    container_feature_id := "feature-1"
    timestamp := fun _ => "2024-01-01T00:00:00"
    hash_preview := "0123456789abcdef" }

/-- Spec-level classifier (spec section 3): does a character list open a
serialized error record?  Producer error records open with the key
`"error"`, messages with the key `"id"`, so three characters decide. -/
def isErrorStart (l : List Char) : Bool :=
  match l with
  | a :: b :: c :: _ => a == '{' && b == '"' && c == 'e'
  | _ => false

/-- Spec-level classifier: a terminal payload is the sentinel or an
error record. -/
def isTerminalPayload (p : String) : Bool :=
  p == "[DONE]" || isErrorStart p.data

/-- Spec-level classifier: a terminal entry of a session log. -/
def isTerminalEntry (e : XEntry) : Bool :=
  match getData e with
  | some p => isTerminalPayload p
  | none => false

/-- Availability schedules under which the relay never outwaits the
producer: once polling starts, each bounded poll reveals at least one
more entry until the log is complete.  This is the model counterpart of
the reference pacing (the producer appends every 0.5 s while one XREAD
blocks for up to 1 s), and it covers a relay attached before (avail 0 =
0), during (avail 0 partial) or after (avail constantly full)
production. -/
def Feeds (avail : Nat → Nat) (L : Nat) : Prop :=
  ∀ u, min (avail u + 1) L ≤ min (avail (u + 1)) L

lemma serializeMessage_data (m : Message) :
    ∃ r, (serializeMessage m).data = '{' :: '"' :: 'i' :: 'd' :: '"' :: ':' :: ' ' :: r :=
  ⟨_, rfl⟩

lemma errPayload_data (e fid cid : String) :
    ∃ r, (errPayload e fid cid).data =
      '{' :: '"' :: 'e' :: 'r' :: 'r' :: 'o' :: 'r' :: '"' :: ':' :: ' ' :: r :=
  ⟨_, rfl⟩

lemma getData_mkDataEntry (p : String) :
    getData (mkDataEntry p) = if p = "" then none else some p := by
  simp [getData, mkDataEntry, dictGet, pyOr]

lemma serializeMessage_ne_empty (m : Message) : serializeMessage m ≠ "" := by
  obtain ⟨r, hr⟩ := serializeMessage_data m
  intro h
  rw [h] at hr
  simp at hr

lemma serializeMessage_ne_done (m : Message) : serializeMessage m ≠ "[DONE]" := by
  obtain ⟨r, hr⟩ := serializeMessage_data m
  intro h
  rw [h] at hr
  simp [String.ext_iff] at hr

lemma errPayload_ne_empty (e fid cid : String) : errPayload e fid cid ≠ "" := by
  obtain ⟨r, hr⟩ := errPayload_data e fid cid
  intro h
  rw [h] at hr
  simp at hr

lemma errPayload_ne_done (e fid cid : String) : errPayload e fid cid ≠ "[DONE]" := by
  obtain ⟨r, hr⟩ := errPayload_data e fid cid
  intro h
  rw [h] at hr
  simp [String.ext_iff] at hr

lemma getData_msgEntry (fid cid : String) (env : ProducerEnv) (i : Nat) :
    getData (msgEntry fid cid env i) = some (serializeMessage (mkMessage fid cid env i)) := by
  rw [msgEntry, getData_mkDataEntry, if_neg (serializeMessage_ne_empty _)]

lemma getData_msgEntry_ne_done (fid cid : String) (env : ProducerEnv) (i : Nat) :
    getData (msgEntry fid cid env i) ≠ some "[DONE]" := by
  rw [getData_msgEntry]
  intro h
  exact serializeMessage_ne_done _ (Option.some.injEq _ _ ▸ h)

lemma getData_doneEntry : getData doneEntry = some "[DONE]" := by decide

lemma getData_errEntry (e fid cid : String) :
    getData (errEntry e fid cid) = some (errPayload e fid cid) := by
  rw [errEntry, getData_mkDataEntry, if_neg (errPayload_ne_empty _ _ _)]

lemma getData_errEntry_ne_done (e fid cid : String) :
    getData (errEntry e fid cid) ≠ some "[DONE]" := by
  rw [getData_errEntry]
  intro h
  exact errPayload_ne_done _ _ _ (Option.some.injEq _ _ ▸ h)

lemma frameOf_msgEntry (fid cid : String) (env : ProducerEnv) (i : Nat) :
    frameOf (msgEntry fid cid env i) =
      "data: " ++ serializeMessage (mkMessage fid cid env i) ++ "\n\n" := by
  rw [frameOf, getData_msgEntry]
  rfl

lemma frameOf_errEntry (e fid cid : String) :
    frameOf (errEntry e fid cid) = "data: " ++ errPayload e fid cid ++ "\n\n" := by
  rw [frameOf, getData_errEntry]
  rfl

lemma isTerminalEntry_msgEntry (fid cid : String) (env : ProducerEnv) (i : Nat) :
    isTerminalEntry (msgEntry fid cid env i) = false := by
  obtain ⟨r, hr⟩ := serializeMessage_data (mkMessage fid cid env i)
  have hne : serializeMessage (mkMessage fid cid env i) ≠ "[DONE]" :=
    serializeMessage_ne_done _
  simp [isTerminalEntry, getData_msgEntry, isTerminalPayload, isErrorStart, hr, hne]

lemma isTerminalEntry_doneEntry : isTerminalEntry doneEntry = true := by decide

lemma isTerminalEntry_errEntry (e fid cid : String) :
    isTerminalEntry (errEntry e fid cid) = true := by
  obtain ⟨r, hr⟩ := errPayload_data e fid cid
  simp [isTerminalEntry, getData_errEntry, isTerminalPayload, isErrorStart, hr]

lemma produceMessages_none (fid cid : String) (env : ProducerEnv) :
    ∀ n i, produceMessages fid cid env none n i =
      ((List.range' i n).map (msgEntry fid cid env), none) := by
  intro n
  induction n with
  | zero => intro i; simp [produceMessages, List.range']
  | succ n ih => intro i; simp [produceMessages, ih, List.range']

lemma produceMessages_fault (fid cid : String) (env : ProducerEnv) (k : Nat) (e : String) :
    ∀ n i, i ≤ k → k < i + n →
      produceMessages fid cid env (some (k, e)) n i =
        ((List.range' i (k - i)).map (msgEntry fid cid env), some e) := by
  intro n
  induction n with
  | zero => intro i h1 h2; omega
  | succ n ih =>
    intro i h1 h2
    by_cases hik : i = k
    · subst hik
      simp [produceMessages, List.range']
    · have hik' : i < k := by omega
      have hk : k - i = (k - (i + 1)) + 1 := by omega
      rw [produceMessages]
      simp only [if_neg hik]
      rw [ih (i + 1) (by omega) (by omega), hk, List.range']
      simp

lemma produceMessages_fault_late (fid cid : String) (env : ProducerEnv) (k : Nat) (e : String) :
    ∀ n i, i + n ≤ k →
      produceMessages fid cid env (some (k, e)) n i =
        ((List.range' i n).map (msgEntry fid cid env), none) := by
  intro n
  induction n with
  | zero => intro i h; simp [produceMessages, List.range']
  | succ n ih =>
    intro i h
    rw [produceMessages]
    simp only [if_neg (show ¬ i = k by omega)]
    rw [ih (i + 1) (by omega), List.range']
    simp

lemma generate_messages_none (fid cid : String) (env : ProducerEnv) :
    generate_messages fid cid env none =
      { trace := ((List.range 20).map fun i => PEffect.xadd (msgEntry fid cid env i)) ++
                 [PEffect.xadd doneEntry, PEffect.expire 60]
        outcome := Outcome.ok ("Generated 20 messages for " ++ fid ++ ":" ++ cid) } := by
  rw [generate_messages, produceMessages_none]
  simp [List.range_eq_range']

lemma generate_messages_fault (fid cid : String) (env : ProducerEnv) (k : Nat) (e : String)
    (hk : k < 20) :
    generate_messages fid cid env (some (k, e)) =
      { trace := ((List.range k).map fun i => PEffect.xadd (msgEntry fid cid env i)) ++
                 [PEffect.xadd (errEntry e fid cid)]
        outcome := Outcome.raised e } := by
  rw [generate_messages, produceMessages_fault fid cid env k e 20 0 (by omega) (by omega)]
  simp [List.range_eq_range']

lemma generate_messages_fault_late (fid cid : String) (env : ProducerEnv) (k : Nat) (e : String)
    (hk : 20 ≤ k) :
    generate_messages fid cid env (some (k, e)) = generate_messages fid cid env none := by
  rw [generate_messages, generate_messages,
    produceMessages_fault_late fid cid env k e 20 0 (by omega), produceMessages_none]

lemma effectsLog_map_xadd (f : Nat → XEntry) :
    ∀ l : List Nat, ∀ rest : List PEffect,
      effectsLog ((l.map fun i => PEffect.xadd (f i)) ++ rest) =
        l.map f ++ effectsLog rest := by
  intro l
  induction l with
  | nil => intro rest; rfl
  | cons a l ih =>
    intro rest
    show f a :: effectsLog ((l.map fun i => PEffect.xadd (f i)) ++ rest) =
      f a :: (l.map f ++ effectsLog rest)
    rw [ih rest]

lemma producerLog_none (fid cid : String) (env : ProducerEnv) :
    producerLog (generate_messages fid cid env none) =
      (List.range 20).map (msgEntry fid cid env) ++ [doneEntry] := by
  rw [producerLog, generate_messages_none]
  show effectsLog (((List.range 20).map fun i => PEffect.xadd (msgEntry fid cid env i)) ++
    [PEffect.xadd doneEntry, PEffect.expire 60]) = _
  rw [effectsLog_map_xadd]
  rfl

lemma producerLog_fault (fid cid : String) (env : ProducerEnv) (k : Nat) (e : String)
    (hk : k < 20) :
    producerLog (generate_messages fid cid env (some (k, e))) =
      (List.range k).map (msgEntry fid cid env) ++ [errEntry e fid cid] := by
  rw [producerLog, generate_messages_fault fid cid env k e hk]
  show effectsLog (((List.range k).map fun i => PEffect.xadd (msgEntry fid cid env i)) ++
    [PEffect.xadd (errEntry e fid cid)]) = _
  rw [effectsLog_map_xadd]
  rfl

/-- If no poll from time `t` on ever shows an entry beyond the cursor,
the relay performs `max_retries + 1 - retries` further empty polls,
yields the single timeout frame, and returns. -/
lemma relay_starves (log : List XEntry) (avail : Nat → Nat) :
    ∀ fuel retries t cursor,
      (∀ u, t ≤ u → min (avail u) log.length ≤ cursor) →
      retries ≤ max_retries →
      max_retries + 1 - retries ≤ fuel →
      relayLoop log avail fuel cursor retries t =
        { frames := [timeoutFrame], terminated := true,
          polls := max_retries + 1 - retries } := by
  intro fuel
  simp only [max_retries]
  induction fuel with
  | zero =>
    intro retries t cursor h hr hf
    omega
  | succ n ih =>
    intro retries t cursor h hr hf
    rw [relayLoop]
    have hnc : ¬ cursor < min (avail t) log.length := by
      have := h t (Nat.le_refl t)
      omega
    rw [dif_neg hnc]
    simp only [max_retries]
    by_cases hR : 30 < retries + 1
    · rw [if_pos hR]
      have hre : retries = 30 := by omega
      rw [hre]
    · rw [if_neg hR]
      rw [ih (retries + 1) (t + 1) cursor (fun u hu => h u (by omega)) (by omega) (by omega)]
      simp only [RelayRun.mk.injEq]
      exact ⟨trivial, trivial, by omega⟩

/-- On a log holding no sentinel, a relay whose schedule feeds it
forwards every entry from the cursor on and then, the log exhausted,
times out with a single error frame and returns. -/
lemma relay_nodone (log : List XEntry) (avail : Nat → Nat)
    (hF : Feeds avail log.length)
    (hN : ∀ e ∈ log, getData e ≠ some "[DONE]") :
    ∀ fuel cursor retries t,
      cursor ≤ min (avail t) log.length →
      retries ≤ max_retries →
      (cursor < min (avail t) log.length ∧
          2 * (log.length - cursor) + max_retries + 2 ≤ fuel) ∨
        (retries < max_retries ∧ 2 * (log.length - cursor) + max_retries + 3 ≤ fuel) →
      ∃ p, relayLoop log avail fuel cursor retries t =
        { frames := (log.drop cursor).map frameOf ++ [timeoutFrame],
          terminated := true, polls := p } := by
  intro fuel
  induction fuel using Nat.strong_induction_on with
  | _ fuel ih =>
    intro cursor retries t hc hr hcomb
    simp only [max_retries] at hr hcomb
    by_cases hL : log.length ≤ cursor
    · refine ⟨max_retries + 1 - retries, ?_⟩
      rw [relay_starves log avail fuel retries t cursor
        (fun u hu => Nat.le_trans (Nat.min_le_right _ _) hL) (by simp only [max_retries]; omega)
        (by simp only [max_retries]; omega)]
      rw [List.drop_eq_nil_of_le hL]
      rfl
    · have hL' : cursor < log.length := by omega
      obtain ⟨m, rfl⟩ : ∃ m, fuel = m + 1 := ⟨fuel - 1, by omega⟩
      rw [relayLoop]
      by_cases hcv : cursor < min (avail t) log.length
      · rw [dif_pos hcv]
        have he : getData (log.get ⟨cursor,
            Nat.lt_of_lt_of_le hcv (Nat.min_le_right _ _)⟩) ≠ some "[DONE]" :=
          hN _ (List.get_mem _ _ _)
        rw [if_neg he]
        have hc' : cursor + 1 ≤ min (avail (t + 1)) log.length := by
          have h1 := hF t
          have h2 : min (avail t) log.length ≤ avail t := Nat.min_le_left _ _
          omega
        obtain ⟨p, hp⟩ := ih m (by omega) (cursor + 1) 0 (t + 1) hc'
          (by simp only [max_retries]; omega)
          (Or.inr (by simp only [max_retries]; omega))
        rw [hp]
        refine ⟨p + 1, ?_⟩
        simp only [RelayRun.mk.injEq]
        refine ⟨?_, trivial, trivial⟩
        rw [List.drop_eq_getElem_cons hL', List.map_cons, List.cons_append]
        rfl
      · rw [dif_neg hcv]
        have hrr : retries < 30 ∧ 2 * (log.length - cursor) + 33 ≤ m + 1 := by
          rcases hcomb with h1 | h1
          · exact absurd h1.1 hcv
          · exact h1
        have hnR : ¬ max_retries < retries + 1 := by simp only [max_retries]; omega
        rw [if_neg hnR]
        have hc' : cursor < min (avail (t + 1)) log.length := by
          have h1 := hF t
          have h2 : min (avail t) log.length ≤ avail t := Nat.min_le_left _ _
          omega
        obtain ⟨p, hp⟩ := ih m (by omega) cursor (retries + 1) (t + 1) (Nat.le_of_lt hc')
          (by simp only [max_retries]; omega)
          (Or.inl ⟨hc', by simp only [max_retries]; omega⟩)
        rw [hp]
        exact ⟨p + 1, rfl⟩

/-- On a log whose last entry is the sentinel and whose body holds no
sentinel, a relay whose schedule feeds it forwards every body entry
from the cursor on, then sees the sentinel, emits the final done frame
and returns. -/
lemma relay_done (body : List XEntry) (d : XEntry) (avail : Nat → Nat)
    (hF : Feeds avail (body ++ [d]).length)
    (hD : getData d = some "[DONE]")
    (hN : ∀ e ∈ body, getData e ≠ some "[DONE]") :
    ∀ fuel cursor retries t,
      cursor ≤ min (avail t) ((body ++ [d]).length) →
      cursor ≤ body.length →
      retries ≤ max_retries →
      (cursor < min (avail t) ((body ++ [d]).length) ∧
          2 * ((body ++ [d]).length - cursor) + max_retries + 2 ≤ fuel) ∨
        (retries < max_retries ∧
          2 * ((body ++ [d]).length - cursor) + max_retries + 3 ≤ fuel) →
      ∃ p, relayLoop (body ++ [d]) avail fuel cursor retries t =
        { frames := (body.drop cursor).map frameOf ++ [doneFrame],
          terminated := true, polls := p } := by
  intro fuel
  induction fuel using Nat.strong_induction_on with
  | _ fuel ih =>
    intro cursor retries t hc hcb hr hcomb
    simp only [max_retries] at hr hcomb
    have hLlen : (body ++ [d]).length = body.length + 1 := by simp
    obtain ⟨m, rfl⟩ : ∃ m, fuel = m + 1 := ⟨fuel - 1, by omega⟩
    rw [relayLoop]
    by_cases hcv : cursor < min (avail t) ((body ++ [d]).length)
    · rw [dif_pos hcv]
      by_cases hcend : cursor < body.length
      · have hget : (body ++ [d]).get ⟨cursor,
            Nat.lt_of_lt_of_le hcv (Nat.min_le_right _ _)⟩ = body.get ⟨cursor, hcend⟩ := by
          rw [List.get_eq_getElem, List.get_eq_getElem]
          exact List.getElem_append_left hcend
        have he : getData ((body ++ [d]).get ⟨cursor,
            Nat.lt_of_lt_of_le hcv (Nat.min_le_right _ _)⟩) ≠ some "[DONE]" := by
          rw [hget]
          exact hN _ (List.get_mem _ _ _)
        rw [if_neg he]
        have hc' : cursor + 1 ≤ min (avail (t + 1)) ((body ++ [d]).length) := by
          have h1 := hF t
          have h2 : min (avail t) ((body ++ [d]).length) ≤ avail t := Nat.min_le_left _ _
          omega
        obtain ⟨p, hp⟩ := ih m (by omega) (cursor + 1) 0 (t + 1) hc' (by omega)
          (by simp only [max_retries]; omega)
          (Or.inr (by simp only [max_retries]; omega))
        rw [hp]
        refine ⟨p + 1, ?_⟩
        simp only [RelayRun.mk.injEq]
        refine ⟨?_, trivial, trivial⟩
        rw [hget, List.drop_eq_getElem_cons hcend, List.map_cons, List.cons_append]
        rfl
      · have hcursor : cursor = body.length := by omega
        have hgd : getData ((body ++ [d]).get ⟨cursor,
            Nat.lt_of_lt_of_le hcv (Nat.min_le_right _ _)⟩) = some "[DONE]" := by
          rw [List.get_eq_getElem, List.getElem_concat_length body d cursor hcursor]
          exact hD
        rw [if_pos hgd]
        refine ⟨1, ?_⟩
        rw [List.drop_eq_nil_of_le (by omega)]
        rfl
    · rw [dif_neg hcv]
      have hrr : retries < 30 ∧ 2 * ((body ++ [d]).length - cursor) + 33 ≤ m + 1 := by
        rcases hcomb with h1 | h1
        · exact absurd h1.1 hcv
        · exact h1
      have hnR : ¬ max_retries < retries + 1 := by simp only [max_retries]; omega
      rw [if_neg hnR]
      have hc' : cursor < min (avail (t + 1)) ((body ++ [d]).length) := by
        have h1 := hF t
        have h2 : min (avail t) ((body ++ [d]).length) ≤ avail t := Nat.min_le_left _ _
        omega
      obtain ⟨p, hp⟩ := ih m (by omega) cursor (retries + 1) (t + 1) (Nat.le_of_lt hc') hcb
        (by simp only [max_retries]; omega)
        (Or.inl ⟨hc', by simp only [max_retries]; omega⟩)
      rw [hp]
      exact ⟨p + 1, rfl⟩

lemma getData_none_of_missing (e : XEntry)
    (h1 : dictGet e.fields (FKey.bk "data") = none)
    (h2 : dictGet e.fields (FKey.sk "data") = none) : getData e = none := by
  rw [getData, h1, h2]
  rfl

/-- Relay run over a log that ends with the sentinel and holds no
earlier sentinel: every body entry is forwarded, then the done frame. -/
lemma generate_done (body : List XEntry) (d : XEntry) (avail : Nat → Nat)
    (hF : Feeds avail (body ++ [d]).length)
    (hD : getData d = some "[DONE]")
    (hN : ∀ e ∈ body, getData e ≠ some "[DONE]") :
    ∃ p, generate (body ++ [d]) avail =
      { frames := body.map frameOf ++ [doneFrame], terminated := true, polls := p } := by
  obtain ⟨p, hp⟩ := relay_done body d avail hF hD hN (relayFuel (body ++ [d])) 0 0 0
    (Nat.zero_le _) (Nat.zero_le _) (Nat.zero_le _)
    (Or.inr ⟨by simp [max_retries], by simp [relayFuel, max_retries]; omega⟩)
  refine ⟨p, ?_⟩
  rw [generate, hp, List.drop_zero]

/-- Relay run over a nonempty log holding no sentinel: every entry is
forwarded, then the single timeout frame. -/
lemma generate_nodone (log : List XEntry) (avail : Nat → Nat)
    (hF : Feeds avail log.length)
    (hN : ∀ e ∈ log, getData e ≠ some "[DONE]")
    (hL : 1 ≤ log.length) :
    ∃ p, generate log avail =
      { frames := log.map frameOf ++ [timeoutFrame], terminated := true, polls := p } := by
  obtain ⟨p, hp⟩ := relay_nodone log avail hF hN (relayFuel log) 0 0 0
    (Nat.zero_le _) (Nat.zero_le _)
    (Or.inr ⟨by simp [max_retries], by simp [relayFuel, max_retries]; omega⟩)
  refine ⟨p, ?_⟩
  rw [generate, hp, List.drop_zero]

lemma countEnqueues_stream_messages (fid cid : String) (b : Bool) :
    countEnqueues (stream_messages fid cid b) = if b then 0 else 1 := by
  cases b <;> simp [stream_messages, countEnqueues, List.countP_cons]

lemma runSession_invariant (fid cid : String) :
    ∀ tr : List SessionEvent, ∀ s : SessionState, ∀ pending : Bool,
      sepAux pending tr = true →
      SessionEvent.expire ∉ tr →
      s.jobsSubmitted ≤ 1 →
      (s.jobsSubmitted = 1 → pending = true ∨ s.streamExists = true) →
      (runSession fid cid s tr).jobsSubmitted ≤ 1 := by
  intro tr
  induction tr with
  | nil => intro s pending h1 h2 h3 h4; exact h3
  | cons ev rest ih =>
    intro s pending h1 h2 h3 h4
    have hne : SessionEvent.expire ∉ rest := fun h => h2 (List.mem_cons_of_mem _ h)
    have hstep : runSession fid cid s (ev :: rest) =
        runSession fid cid (dispatchStep fid cid s ev) rest := rfl
    rw [hstep]
    cases ev with
    | request =>
      simp only [sepAux, Bool.and_eq_true, Bool.not_eq_eq_eq_not, Bool.not_true] at h1
      obtain ⟨hp, hsep⟩ := h1
      have hs' : dispatchStep fid cid s SessionEvent.request =
          { s with jobsSubmitted := s.jobsSubmitted + (if s.streamExists then 0 else 1) } := by
        rw [show dispatchStep fid cid s SessionEvent.request =
          { s with jobsSubmitted :=
              s.jobsSubmitted + countEnqueues (stream_messages fid cid s.streamExists) } from rfl]
        rw [countEnqueues_stream_messages]
      rw [hs']
      cases hex : s.streamExists with
      | true =>
        refine ih _ true hsep hne ?_ ?_
        · simp
          omega
        · intro hj
          exact Or.inr (by simp [hex])
      | false =>
        have hj0 : s.jobsSubmitted = 0 := by
          rcases Nat.lt_or_ge s.jobsSubmitted 1 with h | h
          · omega
          · have h1' : s.jobsSubmitted = 1 := by omega
            rcases h4 h1' with hc | hc
            · rw [hp] at hc
              exact absurd hc (by simp)
            · rw [hex] at hc
              exact absurd hc (by simp)
        refine ih _ true hsep hne ?_ ?_
        · simp [hj0, hex]
        · intro hj
          exact Or.inl rfl
    | firstAppend =>
      simp only [sepAux] at h1
      refine ih _ false h1 hne h3 ?_
      intro hj
      exact Or.inr rfl
    | expire =>
      exact absurd (List.mem_cons_self _ _) h2

end EventStream

namespace EventStream

lemma ttlSet_map_xadd (f : Nat → XEntry) (e' : XEntry) :
    ∀ l : List Nat, ttlSet ((l.map fun i => PEffect.xadd (f i)) ++ [PEffect.xadd e']) = false := by
  intro l
  induction l with
  | nil => rfl
  | cons a l ih => exact ih

lemma terminal_block (msgs : List XEntry) (term : XEntry)
    (hm : ∀ e ∈ msgs, isTerminalEntry e = false)
    (ht : isTerminalEntry term = true) :
    (msgs ++ [term]).countP isTerminalEntry = 1 ∧
      ∃ tl, (msgs ++ [term]).getLast? = some tl ∧ isTerminalEntry tl = true := by
  constructor
  · rw [List.countP_append]
    have h0 : msgs.countP isTerminalEntry = 0 := by
      rw [List.countP_eq_zero]
      intro a ha
      simp [hm a ha]
    rw [h0, List.countP_cons, if_pos ht]
    rfl
  · exact ⟨term, List.getLast?_concat _, ht⟩

/-- C3: every single producer execution on a fresh session log leaves a
log with exactly one terminal entry (the sentinel on success, the error
record on failure), and that terminal entry is the last entry of the
log.  `fault = none` and late faults give the success log; any fault in
iterations 0..19 gives the failure log. -/
theorem c3_exactly_one_terminal_entry (fid cid : String) (env : ProducerEnv)
    (fault : Option (Nat × String)) :
    (producerLog (generate_messages fid cid env fault)).countP isTerminalEntry = 1 ∧
      ∃ tl, (producerLog (generate_messages fid cid env fault)).getLast? = some tl ∧
        isTerminalEntry tl = true := by
  have hmsg : ∀ e ∈ (List.range 20).map (msgEntry fid cid env), isTerminalEntry e = false := by
    intro e he
    obtain ⟨i, _, rfl⟩ := List.mem_map.mp he
    exact isTerminalEntry_msgEntry fid cid env i
  have hnone : (producerLog (generate_messages fid cid env none)).countP isTerminalEntry = 1 ∧
      ∃ tl, (producerLog (generate_messages fid cid env none)).getLast? = some tl ∧
        isTerminalEntry tl = true := by
    rw [producerLog_none]
    exact terminal_block _ _ hmsg isTerminalEntry_doneEntry
  match fault with
  | none => exact hnone
  | some (k, e) =>
    by_cases hk : k < 20
    · rw [producerLog_fault fid cid env k e hk]
      refine terminal_block _ _ ?_ (isTerminalEntry_errEntry e fid cid)
      intro e' he'
      obtain ⟨i, _, rfl⟩ := List.mem_map.mp he'
      exact isTerminalEntry_msgEntry fid cid env i
    · rw [generate_messages_fault_late fid cid env k e (by omega)]
      exact hnone

/-- C7: a successful producer run appends exactly the 20 application
messages, in index order, each serialized from a record carrying the
zero-based index, both session key components, the human-readable
payload, a timestamp, and the worker metadata, followed by the
sentinel. -/
theorem c7_twenty_messages_with_fields (fid cid : String) (env : ProducerEnv) :
    producerLog (generate_messages fid cid env none) =
      (List.range 20).map (msgEntry fid cid env) ++ [doneEntry] ∧
    ((List.range 20).map (msgEntry fid cid env)).length = 20 ∧
    ∀ i, i < 20 →
      (mkMessage fid cid env i).id = toString i ∧
      (mkMessage fid cid env i).feature_id = fid ∧
      (mkMessage fid cid env i).chat_id = cid ∧
      (mkMessage fid cid env i).message =
        "Message " ++ toString i ++ " from feature " ++ fid ++ ", chat " ++ cid ∧
      (mkMessage fid cid env i).timestamp = env.timestamp i ∧
      (mkMessage fid cid env i).container_id = env.container_id ∧
      (mkMessage fid cid env i).container_feature_id = env.container_feature_id ∧
      (mkMessage fid cid env i).worker = "arq" ∧
      (mkMessage fid cid env i).hash_preview = env.hash_preview ∧
      msgEntry fid cid env i = mkDataEntry (serializeMessage (mkMessage fid cid env i)) := by
  refine ⟨producerLog_none fid cid env, by simp, ?_⟩
  intro i hi
  exact ⟨rfl, rfl, rfl, rfl, rfl, rfl, rfl, rfl, rfl, rfl⟩

/-- C8: on a failure in any message iteration the producer appends
exactly one error record — whose payload serializes the failure text
and both session key components — as the last store effect before
re-raising the same failure to the executor. -/
theorem c8_error_record_then_reraise (fid cid e : String) (env : ProducerEnv) (k : Nat)
    (hk : k < 20) :
    (generate_messages fid cid env (some (k, e))).trace =
      ((List.range k).map fun i => PEffect.xadd (msgEntry fid cid env i)) ++
        [PEffect.xadd (errEntry e fid cid)] ∧
    (producerLog (generate_messages fid cid env (some (k, e)))).countP isTerminalEntry = 1 ∧
    errPayload e fid cid =
      dumpsObj [("error", e), ("feature_id", fid), ("chat_id", cid)] ∧
    (generate_messages fid cid env (some (k, e))).outcome = Outcome.raised e := by
  refine ⟨?_, ?_, rfl, ?_⟩
  · rw [generate_messages_fault fid cid env k e hk]
  · rw [producerLog_fault fid cid env k e hk]
    refine (terminal_block _ _ ?_ (isTerminalEntry_errEntry e fid cid)).1
    intro e' he'
    obtain ⟨i, _, rfl⟩ := List.mem_map.mp he'
    exact isTerminalEntry_msgEntry fid cid env i
  · rw [generate_messages_fault fid cid env k e hk]

theorem c8_witness :
    (5 < 20) ∧
    (generate_messages "feature-1" "chat-7" envW (some (5, "boom"))).outcome =
      Outcome.raised "boom" :=
  ⟨by decide, (c8_error_record_then_reraise "feature-1" "chat-7" "boom" envW 5 (by decide)).2.2.2⟩

/-- C9: a POST /stream request that observes the session log absent —
in particular one whose log has already expired — first enqueues a
fresh generate_messages job and only then attaches the relay at the
origin cursor, and a fresh run restarts production at message index
0. -/
theorem c9_absent_log_enqueues_fresh_job (fid cid : String) (env : ProducerEnv) :
    stream_messages fid cid false =
      [GatewayAction.enqueueJob fid cid, GatewayAction.attachRelay 0] ∧
    (producerLog (generate_messages fid cid env none)).head? =
      some (msgEntry fid cid env 0) ∧
    (mkMessage fid cid env 0).id = "0" := by
  refine ⟨rfl, ?_, rfl⟩
  rw [producerLog_none]
  rfl

/-- C2 (amended): the success path appends the sentinel and then sets
the 60-second time-to-live as its final store effect; the failure path
appends the error record but sets no time-to-live at all. -/
theorem c2_amended_ttl_only_on_success (fid cid : String) (env : ProducerEnv) :
    (generate_messages fid cid env none).trace =
      ((List.range 20).map fun i => PEffect.xadd (msgEntry fid cid env i)) ++
        [PEffect.xadd doneEntry, PEffect.expire 60] ∧
    ttlSet (generate_messages fid cid env none).trace = true ∧
    ∀ k e, k < 20 → ttlSet (generate_messages fid cid env (some (k, e))).trace = false := by
  have htr := generate_messages_none fid cid env
  refine ⟨by rw [htr], ?_, ?_⟩
  · rw [htr]
    simp [ttlSet]
  · intro k e hk
    rw [generate_messages_fault fid cid env k e hk]
    exact ttlSet_map_xadd _ _ _

/-- C2 (counterexample): a run that fails after 5 messages appends its
terminal error record but never sets the 60-second time-to-live,
contradicting the claim that the TTL is set in the error case too. -/
theorem c2_counterexample :
    ttlSet (generate_messages "feature-1" "chat-7" envW (some (5, "boom"))).trace = false := by
  decide

theorem c2_witness :
    (generate_messages "feature-1" "chat-7" envW none).trace =
      ((List.range 20).map fun i => PEffect.xadd (msgEntry "feature-1" "chat-7" envW i)) ++
        [PEffect.xadd doneEntry, PEffect.expire 60] ∧
    (5 < 20 ∧ ttlSet (generate_messages "feature-1" "chat-7" envW (some (5, "boom"))).trace = false) :=
  ⟨(c2_amended_ttl_only_on_success "feature-1" "chat-7" envW).1,
    by decide, (c2_amended_ttl_only_on_success "feature-1" "chat-7" envW).2.2 5 "boom" (by decide)⟩

theorem c7_witness :
    (3 < 20) ∧ (mkMessage "feature-1" "chat-7" envW 3).id = toString 3 :=
  ⟨by decide, ((c7_twenty_messages_with_fields "feature-1" "chat-7" envW).2.2 3 (by decide)).1⟩

end EventStream

namespace EventStream

/-- C4: for a successfully produced session (20 messages then the
sentinel), a relay attached at cursor 0 whose bounded polls keep pace
with production (Feeds: one poll never reveals less than one new entry
while entries remain, covering attachment before, during or after
production) receives exactly the 20 message frames in index order with
no gaps or duplicates, followed by the literal [DONE] frame, and then
terminates; 21 frames in total. -/
theorem c4_relay_delivers_all_frames (fid cid : String) (env : ProducerEnv)
    (avail : Nat → Nat) (hF : Feeds avail 21) :
    (∃ p, generate (producerLog (generate_messages fid cid env none)) avail =
      { frames := ((List.range 20).map fun i =>
          "data: " ++ serializeMessage (mkMessage fid cid env i) ++ "\n\n") ++ [doneFrame]
        terminated := true
        polls := p }) ∧
    (((List.range 20).map fun i =>
        "data: " ++ serializeMessage (mkMessage fid cid env i) ++ "\n\n") ++ [doneFrame]).length
      = 21 := by
  have hlog := producerLog_none fid cid env
  have hlen : ((List.range 20).map (msgEntry fid cid env) ++ [doneEntry]).length = 21 := by
    simp
  have hF' : Feeds avail ((List.range 20).map (msgEntry fid cid env) ++ [doneEntry]).length := by
    rw [hlen]
    exact hF
  have hN : ∀ e ∈ (List.range 20).map (msgEntry fid cid env), getData e ≠ some "[DONE]" := by
    intro e he
    obtain ⟨i, _, rfl⟩ := List.mem_map.mp he
    exact getData_msgEntry_ne_done fid cid env i
  obtain ⟨p, hp⟩ := generate_done _ doneEntry avail hF' getData_doneEntry hN
  refine ⟨⟨p, ?_⟩, by simp⟩
  rw [hlog, hp]
  rfl

theorem c4_witness :
    Feeds (fun _ => 21) 21 ∧
    ∃ p, generate (producerLog (generate_messages "feature-1" "chat-7" envW none))
        (fun _ => 21) =
      { frames := ((List.range 20).map fun i =>
          "data: " ++ serializeMessage (mkMessage "feature-1" "chat-7" envW i) ++ "\n\n") ++
          [doneFrame]
        terminated := true
        polls := p } :=
  ⟨fun u => by simp, (c4_relay_delivers_all_frames "feature-1" "chat-7" envW (fun _ => 21)
    (fun u => by simp)).1⟩

/-- C1 (amended): when the producer fails after 5 messages, a relay
attached at cursor 0 whose polls keep pace receives the 5 message
frames, then the producer's error frame — but it does not terminate
there: the error record is forwarded as an ordinary frame, the relay
keeps polling the now-quiet log, and after its inactivity ceiling it
emits one final timeout error frame and only then terminates. -/
theorem c1_amended_error_frame_then_timeout (fid cid e : String) (env : ProducerEnv)
    (avail : Nat → Nat) (hF : Feeds avail 6) :
    ∃ p, generate (producerLog (generate_messages fid cid env (some (5, e)))) avail =
      { frames := ((List.range 5).map fun i =>
          "data: " ++ serializeMessage (mkMessage fid cid env i) ++ "\n\n") ++
          ["data: " ++ errPayload e fid cid ++ "\n\n", timeoutFrame]
        terminated := true
        polls := p } := by
  have hlog := producerLog_fault fid cid env 5 e (by omega)
  have hlen : ((List.range 5).map (msgEntry fid cid env) ++ [errEntry e fid cid]).length = 6 := by
    simp
  have hF' : Feeds avail
      ((List.range 5).map (msgEntry fid cid env) ++ [errEntry e fid cid]).length := by
    rw [hlen]
    exact hF
  have hN : ∀ e' ∈ (List.range 5).map (msgEntry fid cid env) ++ [errEntry e fid cid],
      getData e' ≠ some "[DONE]" := by
    intro e' he'
    rcases List.mem_append.mp he' with h | h
    · obtain ⟨i, _, rfl⟩ := List.mem_map.mp h
      exact getData_msgEntry_ne_done fid cid env i
    · rw [List.mem_singleton.mp h]
      exact getData_errEntry_ne_done e fid cid
  obtain ⟨p, hp⟩ := generate_nodone _ avail hF' hN (by rw [hlen]; omega)
  refine ⟨p, ?_⟩
  rw [hlog, hp]
  rfl

theorem c1_witness :
    Feeds (fun _ => 6) 6 ∧
    ∃ p, generate (producerLog (generate_messages "feature-1" "chat-7" envW (some (5, "boom"))))
        (fun _ => 6) =
      { frames := ((List.range 5).map fun i =>
          "data: " ++ serializeMessage (mkMessage "feature-1" "chat-7" envW i) ++ "\n\n") ++
          ["data: " ++ errPayload "boom" "feature-1" "chat-7" ++ "\n\n", timeoutFrame]
        terminated := true
        polls := p } :=
  ⟨fun u => by simp, c1_amended_error_frame_then_timeout "feature-1" "chat-7" "boom" envW
    (fun _ => 6) (fun u => by simp)⟩

set_option maxRecDepth 8000 in
/-- C1 (counterexample): in the concrete scenario of the claim (fault
after 5 messages, relay attached at cursor 0 on the complete log) the
relay run yields 7 frames, not 6: after the producer's error frame a
further timeout frame follows before the relay terminates, so the event
sequence does not end immediately after the error frame. -/
theorem c1_counterexample :
    generate (producerLog (generate_messages "feature-1" "chat-7" envW (some (5, "boom"))))
        (fun _ => 6) =
      { frames := ((List.range 5).map fun i =>
          "data: " ++ serializeMessage (mkMessage "feature-1" "chat-7" envW i) ++ "\n\n") ++
          ["data: " ++ errPayload "boom" "feature-1" "chat-7" ++ "\n\n", timeoutFrame]
        terminated := true
        polls := 37 } ∧
    (generate (producerLog (generate_messages "feature-1" "chat-7" envW (some (5, "boom"))))
        (fun _ => 6)).frames.length = 7 := by
  constructor
  · decide
  · decide

/-- C5: if no poll ever reveals an entry (zero entries appended after
attach, including the log-absent / already-expired case), the relay
performs exactly max_retries + 1 = 31 bounded polls, emits exactly one
timeout error frame, and returns — no further polling and no indefinite
blocking. -/
theorem c5_timeout_on_silent_log (log : List XEntry) (avail : Nat → Nat)
    (h : ∀ t, min (avail t) log.length = 0) :
    generate log avail =
      { frames := [timeoutFrame], terminated := true, polls := max_retries + 1 } := by
  have hrun := relay_starves log avail (relayFuel log) 0 0 0
    (fun u hu => Nat.le_of_eq (h u)) (Nat.zero_le _)
    (by simp only [relayFuel, max_retries]; omega)
  simp only [Nat.sub_zero] at hrun
  rw [generate, hrun]

theorem c5_witness :
    (∀ t : Nat, min ((fun _ : Nat => 0) t) ([] : List XEntry).length = 0) ∧
    generate ([] : List XEntry) (fun _ => 0) =
      { frames := [timeoutFrame], terminated := true, polls := max_retries + 1 } :=
  ⟨fun _ => rfl, c5_timeout_on_silent_log [] (fun _ => 0) (fun _ => rfl)⟩

/-- C6: the admission step submits a job exactly when the existence
check fails, so along any sequence of non-overlapping requests (each
admitted job performs its first append before the next request) during
which the log never expires, at most one job is ever submitted. -/
theorem c6_sequential_admission_idempotent (fid cid : String) (tr : List SessionEvent)
    (hsep : sepAux false tr = true) (hne : SessionEvent.expire ∉ tr) :
    (runSession fid cid { streamExists := false, jobsSubmitted := 0 } tr).jobsSubmitted ≤ 1 ∧
    ∀ b, countEnqueues (stream_messages fid cid b) = if b then 0 else 1 :=
  ⟨runSession_invariant fid cid tr _ false hsep hne (by decide)
      (fun h => absurd h (by decide)),
    countEnqueues_stream_messages fid cid⟩

theorem c6_witness :
    (sepAux false [SessionEvent.request, SessionEvent.firstAppend, SessionEvent.request] = true) ∧
    (SessionEvent.expire ∉
      [SessionEvent.request, SessionEvent.firstAppend, SessionEvent.request]) ∧
    (runSession "feature-1" "chat-7" { streamExists := false, jobsSubmitted := 0 }
      [SessionEvent.request, SessionEvent.firstAppend, SessionEvent.request]).jobsSubmitted ≤ 1 :=
  ⟨by decide, by decide,
    (c6_sequential_admission_idempotent "feature-1" "chat-7"
      [SessionEvent.request, SessionEvent.firstAppend, SessionEvent.request]
      (by decide) (by decide)).1⟩

/-- C10: the relay is total on malformed entries: an entry whose field
map has no data key under either the byte-string or the plain key is
forwarded as the literal frame "data: None", the cursor advances past
it, and the inactivity counter resets to zero; the relay neither fails
nor skips. -/
theorem c10_malformed_entry_forwarded_as_none (log : List XEntry) (avail : Nat → Nat)
    (fuel cursor retries t : Nat)
    (hlt : cursor < min (avail t) log.length)
    (h1 : dictGet (log.get ⟨cursor, Nat.lt_of_lt_of_le hlt (Nat.min_le_right _ _)⟩).fields
        (FKey.bk "data") = none)
    (h2 : dictGet (log.get ⟨cursor, Nat.lt_of_lt_of_le hlt (Nat.min_le_right _ _)⟩).fields
        (FKey.sk "data") = none) :
    frameOf (log.get ⟨cursor, Nat.lt_of_lt_of_le hlt (Nat.min_le_right _ _)⟩) =
      "data: None\n\n" ∧
    relayLoop log avail (fuel + 1) cursor retries t =
      { frames := "data: None\n\n" ::
          (relayLoop log avail fuel (cursor + 1) 0 (t + 1)).frames
        terminated := (relayLoop log avail fuel (cursor + 1) 0 (t + 1)).terminated
        polls := (relayLoop log avail fuel (cursor + 1) 0 (t + 1)).polls + 1 } := by
  have hnone := getData_none_of_missing _ h1 h2
  have hfr : frameOf (log.get ⟨cursor, Nat.lt_of_lt_of_le hlt (Nat.min_le_right _ _)⟩) =
      "data: None\n\n" := by
    rw [frameOf, hnone]
    rfl
  refine ⟨hfr, ?_⟩
  rw [relayLoop, dif_pos hlt, if_neg (by rw [hnone]; simp), hfr]

theorem c10_witness :
    (0 < min ((fun _ : Nat => 1) 0) ([({ fields := [] } : XEntry)]).length) ∧
    frameOf (([({ fields := [] } : XEntry)]).get ⟨0, Nat.one_pos⟩) = "data: None\n\n" ∧
    relayLoop [({ fields := [] } : XEntry)] (fun _ => 1) 1 0 0 0 =
      { frames := "data: None\n\n" ::
          (relayLoop [({ fields := [] } : XEntry)] (fun _ => 1) 0 1 0 1).frames
        terminated := (relayLoop [({ fields := [] } : XEntry)] (fun _ => 1) 0 1 0 1).terminated
        polls := (relayLoop [({ fields := [] } : XEntry)] (fun _ => 1) 0 1 0 1).polls + 1 } :=
  ⟨by decide,
    (c10_malformed_entry_forwarded_as_none [({ fields := [] } : XEntry)] (fun _ => 1) 0 0 0 0
      (by decide) (by decide) (by decide)).1,
    (c10_malformed_entry_forwarded_as_none [({ fields := [] } : XEntry)] (fun _ => 1) 0 0 0 0
      (by decide) (by decide) (by decide)).2⟩

end EventStream
